import Mathlib

/-
Verification development for the OpenPMIx attribute exchange-and-storage
subsystem: the client fence path (PMIx_Fence / PMIx_Fence_nb / pack_fence /
unpack_return / wait_cbfunc / op_cbfunc) and the gds_shmem scoped store
fetch path (pmix_gds_shmem_fetch and the node/app-info helpers).

The C sources are shallowly embedded as executable Lean functions.  The
typed wire codec is an external collaborator specified only by contract;
buffers are modelled as streams of typed items, with a distinguished
"malformed" item on which any typed unpack reports a hard decode error,
and exhaustion reporting the end-of-buffer condition.  C assert(false)
statements are modelled by an explicit abort outcome, guarded by an
`assertsEnabled` parameter (false corresponds to an NDEBUG build).
Machine integers carry no overflow-relevant arithmetic on these paths, so
ranks and sizes are Nat and statuses are Int.
-/

set_option autoImplicit false

/-! ## Status codes

`pmix_status_t` is a C int.  `PMIX_SUCCESS` is 0.  The error constants
used on these code paths are not all defined inside the provided sources
(most live in pmix_common.h); the sources only compare them for equality,
so any pairwise-distinct negative values are faithful.  Values appearing
in src/include/pmix_deprecated.h (e.g. PMIX_ERR_DATA_VALUE_NOT_FOUND = -30,
PMIX_ERR_PACK_MISMATCH = -22) are kept exactly. -/

abbrev pmix_status_t := Int

def PMIX_SUCCESS : pmix_status_t := 0
def PMIX_ERR_INIT : pmix_status_t := -24
def PMIX_ERR_BAD_PARAM : pmix_status_t := -27
def PMIX_ERR_NOMEM : pmix_status_t := -25
def PMIX_ERR_PACK_MISMATCH : pmix_status_t := -22
def PMIX_ERR_DATA_VALUE_NOT_FOUND : pmix_status_t := -30
def PMIX_ERR_NOT_FOUND : pmix_status_t := -46
def PMIX_ERR_NOT_SUPPORTED : pmix_status_t := -47
def PMIX_ERR_UNPACK_READ_PAST_END_OF_BUFFER : pmix_status_t := -4

/-! ## Basic data model -/

/-- Process rank: a concrete index, or one of the two reserved values
PMIX_RANK_WILDCARD and PMIX_RANK_UNDEF.  PMIX_RANK_IS_VALID holds exactly
for concrete ranks. -/
inductive pmix_rank_t where
  | concrete (n : Nat)
  | wildcard
  | undef
deriving DecidableEq, Repr

/-- PMIX_RANK_IS_VALID: true only for a concrete (non-reserved) rank. -/
def PMIX_RANK_IS_VALID (r : pmix_rank_t) : Bool :=
  match r with
  | .concrete _ => true
  | _ => false

/-- Process identifier: namespace plus rank. -/
structure pmix_proc_t where
  nspace : String
  rank : pmix_rank_t
deriving DecidableEq, Repr

/-- Typed PMIx value.  Scalars the claims touch are represented directly;
`vdarray` is the nested ordered composite (data array of key/value infos);
`vother` stands for any other scalar payload. -/
inductive pmix_value_t where
  | vbool (b : Bool)
  | vstr (s : String)
  | vu32 (n : Nat)
  | vdarray (entries : List (String × pmix_value_t))
  | vother (n : Nat)

/-- Reading the union's string field, as the C does for a HOSTNAME
qualifier without a type check. -/
def pmix_value_t.dataString : pmix_value_t → String
  | .vstr s => s
  | _ => ""

/-- Key/value attribute.  The C pmix_kval_t and pmix_info_t both reduce to
a string key plus a typed value in this model (stored values are deep
copies, which a pure embedding gets for free). -/
structure pmix_kval_t where
  key : String
  value : pmix_value_t

abbrev pmix_info_t := pmix_kval_t

/-! ## Result ingestion (unpack_return and friends)

The client-side store written by ingestion.  pmix_client_hash_store is not
part of the provided sources; modelled from the spec (see below). -/

/-- Client store: ordered sequence of (namespace, rank, attribute)
insertions. -/
abbrev ClientStore := List (String × Nat × pmix_kval_t)

/-- Modelled from the spec: pmix_client_hash_store is not under src/; per
the spec the per-rank table maps (namespace, rank) to an ordered sequence
of attributes, multiple attributes may share a key, and insertion order is
preserved.  Insertion in a pure model always succeeds. -/
def pmix_client_hash_store (nspace : String) (rank : Nat) (kp : pmix_kval_t)
    (store : ClientStore) : pmix_status_t × ClientStore :=
  (PMIX_SUCCESS, store ++ [(nspace, rank, kp)])

/-- One item of a modex blob's payload as seen through the KVAL codec: a
decodable attribute, or malformed bytes on which unpack reports the hard
decode error `rc`. -/
inductive BlobItem where
  | kv (k : pmix_kval_t)
  | malformed (rc : pmix_status_t)

/-- pmix_modex_data_t: per-process blob of (namespace, rank, bytes); the
bytes are viewed through the KVAL codec as a payload item list. -/
structure pmix_modex_data_t where
  nspace : String
  rank : Nat
  payload : List BlobItem

/-- One item of the fence reply buffer as seen through the codec. -/
inductive ReplyItem where
  | rInt (v : Int)
  | rSize (n : Nat)
  | rModex (m : pmix_modex_data_t)
  | rBad (rc : pmix_status_t)

/-- Codec contract: unpack one PMIX_INT.  Exhaustion reports the
end-of-buffer terminator; malformed bytes report their hard error; a
type-tag mismatch reports PMIX_ERR_PACK_MISMATCH. -/
def unpackInt : List ReplyItem → Except pmix_status_t (Int × List ReplyItem)
  | [] => .error PMIX_ERR_UNPACK_READ_PAST_END_OF_BUFFER
  | .rInt v :: rest => .ok (v, rest)
  | .rBad rc :: _ => .error rc
  | _ => .error PMIX_ERR_PACK_MISMATCH

/-- Codec contract: unpack one PMIX_SIZE. -/
def unpackSize : List ReplyItem → Except pmix_status_t (Nat × List ReplyItem)
  | [] => .error PMIX_ERR_UNPACK_READ_PAST_END_OF_BUFFER
  | .rSize n :: rest => .ok (n, rest)
  | .rBad rc :: _ => .error rc
  | _ => .error PMIX_ERR_PACK_MISMATCH

/-- Codec contract: unpack `n` PMIX_MODEX structures in one call (the
`cnt = np` unpack in unpack_return); any failure discards partial
results. -/
def unpackModexN : Nat → List ReplyItem →
    Except pmix_status_t (List pmix_modex_data_t × List ReplyItem)
  | 0, rest => .ok ([], rest)
  | n + 1, items =>
    match items with
    | .rModex m :: rest =>
      match unpackModexN n rest with
      | .ok (ms, r) => .ok (m :: ms, r)
      | .error rc => .error rc
    | [] => .error PMIX_ERR_UNPACK_READ_PAST_END_OF_BUFFER
    | .rBad rc :: _ => .error rc
    | _ => .error PMIX_ERR_PACK_MISMATCH

/-- The per-blob while-loop of unpack_return: repeatedly unpack one KVAL
and store it under the blob's (nspace, rank); the loop ends with the
terminating unpack status (end-of-buffer at payload exhaustion, or the
hard error of a malformed item).  A store failure is logged but `rc` is
overwritten by the next unpack, so it never becomes the loop's result. -/
def ingestBlobLoop (nspace : String) (rank : Nat) :
    List BlobItem → ClientStore → pmix_status_t × ClientStore
  | [], store => (PMIX_ERR_UNPACK_READ_PAST_END_OF_BUFFER, store)
  | .kv k :: rest, store =>
    ingestBlobLoop nspace rank rest (pmix_client_hash_store nspace rank k store).2
  | .malformed rc :: _, store => (rc, store)

/-- Ingestion of one modex blob (the body of the `for (i...)` loop). -/
def ingestBlob (m : pmix_modex_data_t) (store : ClientStore) :
    pmix_status_t × ClientStore :=
  ingestBlobLoop m.nspace m.rank m.payload store

/-- The blob for-loop: each blob is ingested in order regardless of the
previous blob's terminating status; `rc` after the loop is the last
blob's terminating status (or the incoming `prev` when no blob ran). -/
def ingestBlobs (prev : pmix_status_t) :
    List pmix_modex_data_t → ClientStore → pmix_status_t × ClientStore
  | [], store => (prev, store)
  | m :: rest, store =>
    let r := ingestBlob m store
    ingestBlobs r.1 rest r.2

/-- unpack_return: decode the leading status (returning the decode error
on failure, or the status itself when non-success), then the blob count,
then the blob array, then ingest every blob; finally, a last `rc` that is
neither success nor the end-of-buffer terminator is returned as-is, and
anything else becomes success. -/
def unpack_return (data : List ReplyItem) (store : ClientStore) :
    pmix_status_t × ClientStore :=
  match unpackInt data with
  | .error rc => (rc, store)
  | .ok (ret, data1) =>
    if ret ≠ PMIX_SUCCESS then (ret, store)
    else
      match unpackSize data1 with
      | .error rc => (rc, store)
      | .ok (np, data2) =>
        if np = 0 then (PMIX_SUCCESS, store)
        else
          match unpackModexN np data2 with
          | .error rc => (rc, store)
          | .ok (mdx, _) =>
            let r := ingestBlobs PMIX_SUCCESS mdx store
            if r.1 ≠ PMIX_SUCCESS ∧ r.1 ≠ PMIX_ERR_UNPACK_READ_PAST_END_OF_BUFFER
            then (r.1, r.2)
            else (PMIX_SUCCESS, r.2)

/-- The blocking-fence callback object: completion flag plus captured
status (pmix_cb_t fields used by PMIx_Fence). -/
structure pmix_cb_t where
  active : Bool
  status : pmix_status_t
deriving DecidableEq, Repr

/-- op_cbfunc: record the completion status and clear the active flag. -/
def op_cbfunc (status : pmix_status_t) (cb : pmix_cb_t) : pmix_cb_t :=
  { cb with status := status, active := false }

/-- wait_cbfunc: run unpack_return on the reply and deliver its status to
the completion callback (here the blocking-fence op_cbfunc).  Returns the
delivered status, the updated store, and the updated callback object. -/
def wait_cbfunc (buf : List ReplyItem) (store : ClientStore) (cb : pmix_cb_t) :
    pmix_status_t × ClientStore × pmix_cb_t :=
  let r := unpack_return buf store
  (r.1, r.2, op_cbfunc r.1 cb)

/-! ## The fence request path -/

/-- One typed item of the encoded fence request, in pack order. -/
inductive ReqItem where
  | cmd (c : Nat)
  | size (n : Nat)
  | proc (p : pmix_proc_t)
  | int (v : Int)
deriving DecidableEq, Repr

/-- The PMIX_FENCENB_CMD command tag (exact value immaterial; only the
tag's identity is observable). -/
def PMIX_FENCENB_CMD : Nat := 1

/-- pack_fence: pack the command tag, the proc count, `nprocs` proc
entries, and the collect_data flag as a PMIX_INT.  The pack primitives of
the codec are deterministic and, in this pure model, total. -/
def pack_fence (cmd : Nat) (procs : List pmix_proc_t) (nprocs : Nat)
    (collect_data : Int) : List ReqItem :=
  ReqItem.cmd cmd :: ReqItem.size nprocs ::
    ((procs.take nprocs).map ReqItem.proc ++ [ReqItem.int collect_data])

/-- Client globals used by the fence path: the init counter
(pmix_client_globals.init_cntr) and the caller's own namespace
(pmix_globals.nspace). -/
structure ClientState where
  init_cntr : Int
  nspace : String
deriving DecidableEq, Repr

/-- Result of PMIx_Fence_nb: the returned status, the request handed to
the transport (none when nothing was sent), and whether a callback object
was registered for the eventual reply. -/
structure FenceNbResult where
  status : pmix_status_t
  sent : Option (List ReqItem)
  registered : Bool
deriving DecidableEq, Repr

/-- PMIx_Fence_nb: fail when not initialized; reject NULL procs with a
nonzero count; materialize NULL procs as the single proc
{own namespace, PMIX_RANK_WILDCARD}; pack the request and hand it to the
transport, registering the callback. -/
def PMIx_Fence_nb (st : ClientState) (procs : Option (List pmix_proc_t))
    (nprocs : Nat) (collect_data : Int) : FenceNbResult :=
  if st.init_cntr ≤ 0 then
    { status := PMIX_ERR_INIT, sent := none, registered := false }
  else
    match procs with
    | none =>
      if nprocs ≠ 0 then
        { status := PMIX_ERR_BAD_PARAM, sent := none, registered := false }
      else
        let rg : pmix_proc_t := { nspace := st.nspace, rank := .wildcard }
        { status := PMIX_SUCCESS,
          sent := some (pack_fence PMIX_FENCENB_CMD [rg] 1 collect_data),
          registered := true }
    | some ps =>
      { status := PMIX_SUCCESS,
        sent := some (pack_fence PMIX_FENCENB_CMD ps nprocs collect_data),
        registered := true }

/-- PMIx_Fence (blocking): create a callback object, issue PMIx_Fence_nb
with op_cbfunc, and on failure return that status at once, with no
completion event.  Otherwise the (single) reply is later processed by
wait_cbfunc on the progress context, which invokes op_cbfunc exactly
once; the blocking call then returns the captured status.  The third
component records the statuses delivered to the internal completion
handler for this call. -/
def PMIx_Fence (st : ClientState) (procs : Option (List pmix_proc_t))
    (nprocs : Nat) (collect_data : Int) (reply : List ReplyItem)
    (store : ClientStore) : pmix_status_t × ClientStore × List pmix_status_t :=
  let r := PMIx_Fence_nb st procs nprocs collect_data
  if r.status ≠ PMIX_SUCCESS then (r.status, store, [])
  else
    let w := wait_cbfunc reply store { active := true, status := PMIX_SUCCESS }
    (w.2.2.status, w.2.1, [w.1])

/-! ## Scoped store (gds_shmem) data model -/

/-- Attribute-key string constants.  Exact spellings live in external
headers; only their pairwise distinctness and identity are observable
here. -/
def PMIX_SESSION_INFO : String := "pmix.ssn.info"

def PMIX_NODE_INFO : String := "pmix.node.info"

def PMIX_APP_INFO : String := "pmix.app.info"

def PMIX_NODEID : String := "pmix.nodeid"

def PMIX_HOSTNAME : String := "pmix.hname"

def PMIX_APPNUM : String := "pmix.appnum"

def PMIX_NODE_INFO_ARRAY : String := "pmix.node.arr"

def PMIX_APP_INFO_ARRAY : String := "pmix.app.arr"

/-- NodeInfo record: optional node id (UINT32_MAX sentinel modelled as
none), optional hostname, attribute list. -/
structure pmix_gds_shmem_nodeinfo_t where
  nodeid : Option Nat
  hostname : Option String
  info : List pmix_kval_t

/-- AppInfo record: application number, app-level attributes, and the
nodes belonging to that application. -/
structure pmix_gds_shmem_app_t where
  appnum : Nat
  appinfo : List pmix_kval_t
  nodeinfo : List pmix_gds_shmem_nodeinfo_t

abbrev pmix_scope_t := Nat

/-- The per-rank hash table of one job, as ordered (rank slot, attribute)
insertions; the job-level slot is the wildcard rank. -/
abbrev HashTab := List (pmix_rank_t × pmix_kval_t)

/-- Fallback/delegate store: any component implementing the identical
fetch contract. -/
abbrev FallbackFetch :=
  pmix_proc_t → pmix_scope_t → Bool → Option String → List pmix_info_t →
    List pmix_kval_t → pmix_status_t × List pmix_kval_t

/-- Job tracker record (pmix_gds_shmem_job_t plus the nspace fields it
dereferences): protocol version, process count, node/app/job info, the
per-rank table, and the delegate store. -/
structure pmix_gds_shmem_job_t where
  versionMajor : Nat
  versionMinor : Nat
  nprocs : Nat
  nodeinfo : List pmix_gds_shmem_nodeinfo_t
  apps : List pmix_gds_shmem_app_t
  jobinfo : List pmix_kval_t
  local_hashtab : HashTab
  ffgds : FallbackFetch

/-- Globals consulted by the fetch path: this process's hostname and
application number. -/
structure PMIxGlobals where
  hostname : String
  appnum : Nat

/-- Outcome marker for a traversed assert(false) statement under
assertion checking. -/
inductive AssertViolation where
  | assertFalse
deriving DecidableEq, Repr

/-- Result of an assert-bearing fetch-path function: either an assertion
abort, or the C return status together with the output attribute list. -/
abbrev FetchRes := Except AssertViolation (pmix_status_t × List pmix_kval_t)

/-- Modelled from the spec: pmix_gds_shmem_get_job_tracker lives in
gds_shmem utility code outside src/; per the spec there is exactly one
Job per namespace and, with create = false, absence is a lookup
failure. -/
def pmix_gds_shmem_get_job_tracker
    (registry : List (String × pmix_gds_shmem_job_t)) (nspace : String)
    (create : Bool) : Except pmix_status_t pmix_gds_shmem_job_t :=
  match registry.find? (fun e => decide (e.1 = nspace)) with
  | some e => .ok e.2
  | none => if create then .error PMIX_ERR_NOT_SUPPORTED
            else .error PMIX_ERR_NOT_FOUND

/-- Modelled from the spec: pmix_hash2_fetch is external to src/; per the
spec a keyed lookup returns the first attribute stored under that rank
slot with the given key (insertion order wins), a null-key lookup returns
every attribute of the slot, and an empty result is a not-found failure.
Qualifier filtering is not described by the spec and is ignored. -/
def pmix_hash2_fetch (ht : HashTab) (rank : pmix_rank_t) (key : Option String)
    (_qs : List pmix_info_t) (kvs : List pmix_kval_t) :
    pmix_status_t × List pmix_kval_t :=
  let entries := (ht.filter (fun e => decide (e.1 = rank))).map Prod.snd
  match key with
  | some k =>
    match entries.find? (fun kv => decide (kv.key = k)) with
    | some kv => (PMIX_SUCCESS, kvs ++ [kv])
    | none => (PMIX_ERR_NOT_FOUND, kvs)
  | none =>
    if entries.isEmpty then (PMIX_ERR_NOT_FOUND, kvs)
    else (PMIX_SUCCESS, kvs ++ entries)

/-- Modelled from the spec: the PMIX_INFO_TRUE test of a boolean
qualifier value. -/
def PMIX_INFO_TRUE (q : pmix_info_t) : Bool :=
  match q.value with
  | .vbool b => b
  | _ => false

/-- Modelled from the spec: pmix_check_node_info classifies a key by
membership in the static set of well-known node-attribute names. -/
def pmix_check_node_info (k : String) : Bool :=
  decide (k = PMIX_HOSTNAME) || decide (k = PMIX_NODEID)

/-- Modelled from the spec: pmix_check_app_info classifies a key by
membership in the static set of well-known application-attribute
names. -/
def pmix_check_app_info (k : String) : Bool :=
  decide (k = PMIX_APPNUM)

/-- Modelled from the spec: pmix_gds_shmem_get_nodeinfo_by_nodename
resolves a node record by hostname. -/
def pmix_gds_shmem_get_nodeinfo_by_nodename
    (nodeinfos : List pmix_gds_shmem_nodeinfo_t) (h : String) :
    Option pmix_gds_shmem_nodeinfo_t :=
  nodeinfos.find? (fun ndi => decide (ndi.hostname = some h))

/-- True when the job's protocol version is earlier than 3.1, in which
case node composites are keyed by hostname for backward compatibility. -/
def versionPre31 (job : pmix_gds_shmem_job_t) : Bool :=
  decide (job.versionMajor < 3) ||
    (decide (job.versionMajor = 3) && decide (job.versionMinor = 0))

/-- fetch_all_node_info: guarded by assert(false) as its first statement;
with assertions disabled it assembles one composite attribute under `key`
holding the node's hostname and node id entries (when present) followed
by all of the node's attributes, and appends it to the results. -/
def fetch_all_node_info (assertsEnabled : Bool) (key : String)
    (nodeinfo : pmix_gds_shmem_nodeinfo_t) (kvs : List pmix_kval_t) : FetchRes :=
  if assertsEnabled then .error .assertFalse
  else
    let hostEntries : List (String × pmix_value_t) :=
      match nodeinfo.hostname with
      | some h => [(PMIX_HOSTNAME, .vstr h)]
      | none => []
    let idEntries : List (String × pmix_value_t) :=
      match nodeinfo.nodeid with
      | some nid => [(PMIX_NODEID, .vu32 nid)]
      | none => []
    let entries := hostEntries ++ idEntries ++
      nodeinfo.info.map (fun kv => (kv.key, kv.value))
    .ok (PMIX_SUCCESS, kvs ++ [⟨key, .vdarray entries⟩])

/-- fetch_all_node_info_from_list: emit one composite per node; before
version 3.1 the composite is keyed by the node's hostname (nodes without
one are skipped), otherwise by the canonical node-info-array key; the
loop stops at the first failing node. -/
def fetch_all_node_info_from_list (assertsEnabled : Bool)
    (job : pmix_gds_shmem_job_t) :
    List pmix_gds_shmem_nodeinfo_t → List pmix_kval_t → FetchRes
  | [], kvs => .ok (PMIX_SUCCESS, kvs)
  | ni :: rest, kvs =>
    if versionPre31 job then
      match ni.hostname with
      | none => fetch_all_node_info_from_list assertsEnabled job rest kvs
      | some h =>
        match fetch_all_node_info assertsEnabled h ni kvs with
        | .error e => .error e
        | .ok (rc, kvs1) =>
          if rc ≠ PMIX_SUCCESS then .ok (rc, kvs1)
          else fetch_all_node_info_from_list assertsEnabled job rest kvs1
    else
      match fetch_all_node_info assertsEnabled PMIX_NODE_INFO_ARRAY ni kvs with
      | .error e => .error e
      | .ok (rc, kvs1) =>
        if rc ≠ PMIX_SUCCESS then .ok (rc, kvs1)
        else fetch_all_node_info_from_list assertsEnabled job rest kvs1

/-- The node-identifying qualifier found by the scan at the top of
pmix_gds_shmem_fetch_nodeinfo: a node id, a hostname (the union's string
field is read without a type check), or a number-extraction failure. -/
inductive NodeQual where
  | byId (nid : Nat)
  | byName (h : String)
  | badVal (rc : pmix_status_t)

/-- Scan the qualifier list for the first PMIX_NODEID or PMIX_HOSTNAME
entry (the C loop breaks at the first hit). -/
def findNodeQual : List pmix_info_t → Option NodeQual
  | [] => none
  | q :: rest =>
    if q.key = PMIX_NODEID then
      match q.value with
      | .vu32 n => some (.byId n)
      | _ => some (.badVal PMIX_ERR_BAD_PARAM)
    else if q.key = PMIX_HOSTNAME then
      some (.byName q.value.dataString)
    else findNodeQual rest

/-- pmix_gds_shmem_fetch_nodeinfo: identify the requested node from the
qualifiers (node id or hostname, first hit wins); with no identifying
qualifier, a null key enumerates every node, otherwise the local host is
assumed.  Resolve the node record; a miss is optional-data-not-found when
no qualifier named a node, else not-found.  A null key assembles the full
composite for the node (keyed by hostname before version 3.1, else by the
canonical node-info-array key); a concrete key returns a copy of the
node's first matching attribute. -/
def pmix_gds_shmem_fetch_nodeinfo (assertsEnabled : Bool) (g : PMIxGlobals)
    (key : Option String) (job : pmix_gds_shmem_job_t)
    (nodeinfos : List pmix_gds_shmem_nodeinfo_t) (info : List pmix_info_t)
    (kvs : List pmix_kval_t) : FetchRes :=
  match findNodeQual info with
  | some (.badVal rc) => .ok (rc, kvs)
  | nq =>
    let found := nq.isSome
    if ¬found ∧ key = none then
      fetch_all_node_info_from_list assertsEnabled job nodeinfos kvs
    else
      let nodeinfo : Option pmix_gds_shmem_nodeinfo_t :=
        match nq with
        | some (.byId nid) => nodeinfos.find? (fun ndi => decide (ndi.nodeid = some nid))
        | some (.byName hn) => pmix_gds_shmem_get_nodeinfo_by_nodename nodeinfos hn
        | _ => pmix_gds_shmem_get_nodeinfo_by_nodename nodeinfos g.hostname
      match nodeinfo with
      | none =>
        if ¬found then .ok (PMIX_ERR_DATA_VALUE_NOT_FOUND, kvs)
        else .ok (PMIX_ERR_NOT_FOUND, kvs)
      | some ndi =>
        match key with
        | none =>
          let nikey :=
            if versionPre31 job then
              match ndi.hostname with
              | none => g.hostname
              | some hn => hn
            else PMIX_NODE_INFO_ARRAY
          fetch_all_node_info assertsEnabled nikey ndi kvs
        | some k =>
          match ndi.info.find? (fun kvi => decide (kvi.key = k)) with
          | none => .ok (PMIX_ERR_NOT_FOUND, kvs)
          | some kvi => .ok (PMIX_SUCCESS, kvs ++ [⟨kvi.key, kvi.value⟩])

/-- fetch_all_app_info: one composite per application, holding the appnum
entry followed by all app-level attributes. -/
def fetch_all_app_info :
    List pmix_gds_shmem_app_t → List pmix_kval_t → pmix_status_t × List pmix_kval_t
  | [], kvs => (PMIX_SUCCESS, kvs)
  | appi :: rest, kvs =>
    let entries : List (String × pmix_value_t) :=
      (PMIX_APPNUM, .vu32 appi.appnum) ::
        appi.appinfo.map (fun kv => (kv.key, kv.value))
    fetch_all_app_info rest (kvs ++ [⟨PMIX_APP_INFO_ARRAY, .vdarray entries⟩])

/-- The appnum qualifier found by pmix_gds_shmem_fetch_appinfo's scan. -/
inductive AppQual where
  | num (appnum : Nat)
  | badVal (rc : pmix_status_t)

/-- Scan the qualifier list for the first PMIX_APPNUM entry. -/
def findAppQual : List pmix_info_t → Option AppQual
  | [] => none
  | q :: rest =>
    if q.key = PMIX_APPNUM then
      match q.value with
      | .vu32 n => some (.num n)
      | _ => some (.badVal PMIX_ERR_BAD_PARAM)
    else findAppQual rest

/-- The final scan of an application's info list: a null key copies every
attribute, a concrete key copies the first match and stops; `rc` starts
as not-found and becomes success on each append. -/
def appinfoScan (key : Option String) :
    List pmix_kval_t → List pmix_kval_t → pmix_status_t →
      pmix_status_t × List pmix_kval_t
  | [], kvs, rc => (rc, kvs)
  | kvi :: rest, kvs, rc =>
    if key = none ∨ key = some kvi.key then
      if key = none then
        appinfoScan key rest (kvs ++ [⟨kvi.key, kvi.value⟩]) PMIX_SUCCESS
      else (PMIX_SUCCESS, kvs ++ [⟨kvi.key, kvi.value⟩])
    else appinfoScan key rest kvs rc

/-- pmix_gds_shmem_fetch_appinfo: identify the application (explicit
appnum qualifier, else a null key enumerates all apps, else the caller's
own app); a missing app is not-found; otherwise first try the node infos
nested in that app, returning any outcome other than
optional-data-not-found, and finally scan the app's own info list. -/
def pmix_gds_shmem_fetch_appinfo (assertsEnabled : Bool) (g : PMIxGlobals)
    (key : Option String) (job : pmix_gds_shmem_job_t)
    (target : List pmix_gds_shmem_app_t) (info : List pmix_info_t)
    (kvs : List pmix_kval_t) : FetchRes :=
  match findAppQual info with
  | some (.badVal rc) => .ok (rc, kvs)
  | aq =>
    let found := aq.isSome
    if ¬found ∧ key = none then .ok (fetch_all_app_info target kvs)
    else
      let appnum :=
        match aq with
        | some (.num n) => n
        | _ => g.appnum
      match target.find? (fun a => decide (a.appnum = appnum)) with
      | none => .ok (PMIX_ERR_NOT_FOUND, kvs)
      | some app =>
        match pmix_gds_shmem_fetch_nodeinfo assertsEnabled g key job
            app.nodeinfo info kvs with
        | .error e => .error e
        | .ok (rc, kvs1) =>
          if rc ≠ PMIX_ERR_DATA_VALUE_NOT_FOUND then .ok (rc, kvs1)
          else .ok (appinfoScan key app.appinfo kvs1 PMIX_ERR_NOT_FOUND)

/-- The rank-UNDEF scan loop: try each concrete rank in increasing order,
returning (inl) from the whole fetch at the first keyed success, else
(inr) the accumulated results after the last rank. -/
def undefScan (ht : HashTab) (key : Option String) (qs : List pmix_info_t) :
    Nat → Nat → List pmix_kval_t →
      Sum (pmix_status_t × List pmix_kval_t) (List pmix_kval_t)
  | _, 0, kvs => .inr kvs
  | rnk, remaining + 1, kvs =>
    let r := pmix_hash2_fetch ht (.concrete rnk) key qs kvs
    if r.1 = PMIX_SUCCESS ∧ key ≠ none then .inl r
    else undefScan ht key qs (rnk + 1) remaining r.2

/-- The job-level info scan of the UNDEF branch: a null key copies every
job-level attribute, a concrete key copies the first match and stops. -/
def jobinfoAppend (key : Option String) :
    List pmix_kval_t → List pmix_kval_t → List pmix_kval_t
  | [], kvs => kvs
  | kvi :: rest, kvs =>
    if key = none ∨ key = some kvi.key then
      if key = none then jobinfoAppend key rest (kvs ++ [⟨kvi.key, kvi.value⟩])
      else kvs ++ [⟨kvi.key, kvi.value⟩]
    else jobinfoAppend key rest kvs

/-- The code from the doover label to the end of pmix_gds_shmem_fetch:
rank UNDEF scans ranks 0..nprocs-1 (returning at the first keyed match),
then the job-level list; a null key then adds the wildcard-slot job info
and retries the delegate on failure, while a concrete key is delegated to
the fallback store unconditionally.  Any other rank is looked up directly
in the per-rank table, retrying the delegate once on failure. -/
def fetch_doover (_g : PMIxGlobals) (job : pmix_gds_shmem_job_t)
    (proc : pmix_proc_t) (scope : pmix_scope_t) (copy : Bool)
    (key : Option String) (quals : List pmix_info_t)
    (kvs : List pmix_kval_t) : pmix_status_t × List pmix_kval_t :=
  if proc.rank = pmix_rank_t.undef then
    match undefScan job.local_hashtab key quals 0 job.nprocs kvs with
    | .inl r => r
    | .inr kvs1 =>
      let kvs2 := jobinfoAppend key job.jobinfo kvs1
      match key with
      | none =>
        let r := pmix_hash2_fetch job.local_hashtab .wildcard none [] kvs2
        if r.1 ≠ PMIX_SUCCESS then job.ffgds proc scope copy key quals r.2
        else r
      | some _ => job.ffgds proc scope copy key quals kvs2
  else
    let r := pmix_hash2_fetch job.local_hashtab proc.rank key quals kvs
    if r.1 ≠ PMIX_SUCCESS then job.ffgds proc scope copy key quals r.2
    else r

/-- The qualifier scan of pmix_gds_shmem_fetch: none signals a
SESSION_INFO qualifier (unconditional delegation); otherwise the
node/app-requested flags and their explicitly-given markers. -/
def scanQualsAux (ni ai nig aig : Bool) :
    List pmix_info_t → Option (Bool × Bool × Bool × Bool)
  | [] => some (ni, ai, nig, aig)
  | q :: rest =>
    if q.key = PMIX_SESSION_INFO then none
    else if q.key = PMIX_NODE_INFO then
      scanQualsAux (PMIX_INFO_TRUE q) ai true aig rest
    else if q.key = PMIX_APP_INFO then
      scanQualsAux ni (PMIX_INFO_TRUE q) nig true rest
    else scanQualsAux ni ai nig aig rest

/-- Combined qualifier scan and key-name classification: none signals
session delegation; otherwise the final (node-requested, app-requested)
flags, inferring intent from the static key-name sets when a key was
supplied and neither flag was given explicitly. -/
def fetchFlags (key : Option String) (quals : List pmix_info_t) :
    Option (Bool × Bool) :=
  match scanQualsAux false false false false quals with
  | none => none
  | some (ni, ai, nig, aig) =>
    match key with
    | some k =>
      if ¬nig ∧ ¬aig then
        if pmix_check_node_info k then some (true, ai)
        else if pmix_check_app_info k then some (ni, true)
        else some (ni, ai)
      else some (ni, ai)
    | none => some (ni, ai)

/-- pmix_gds_shmem_fetch: require an existing job tracker; reject the
reserved null-key/wildcard-rank combination (behind an assert(false));
delegate session-scoped queries in full; classify node/app intent; for a
non-concrete rank try the node-info or app-info path, falling through to
the generic search only on failure with rank WILDCARD; otherwise run the
generic (doover) search. -/
def pmix_gds_shmem_fetch (assertsEnabled : Bool) (g : PMIxGlobals)
    (registry : List (String × pmix_gds_shmem_job_t)) (proc : pmix_proc_t)
    (scope : pmix_scope_t) (copy : Bool) (key : Option String)
    (quals : List pmix_info_t) (kvs : List pmix_kval_t) : FetchRes :=
  match pmix_gds_shmem_get_job_tracker registry proc.nspace false with
  | .error rc => .ok (rc, kvs)
  | .ok job =>
    if key = none ∧ proc.rank = pmix_rank_t.wildcard then
      if assertsEnabled then .error .assertFalse
      else .ok (PMIX_ERR_NOT_SUPPORTED, kvs)
    else
      match fetchFlags key quals with
      | none => .ok (job.ffgds proc scope copy key quals kvs)
      | some (nodei, appi) =>
        if ¬(PMIX_RANK_IS_VALID proc.rank) ∧ nodei then
          match pmix_gds_shmem_fetch_nodeinfo assertsEnabled g key job
              job.nodeinfo quals kvs with
          | .error e => .error e
          | .ok (rc, kvs1) =>
            if rc ≠ PMIX_SUCCESS ∧ proc.rank = pmix_rank_t.wildcard then
              .ok (fetch_doover g job proc scope copy key quals kvs1)
            else .ok (rc, kvs1)
        else if ¬(PMIX_RANK_IS_VALID proc.rank) ∧ ¬nodei ∧ appi then
          match pmix_gds_shmem_fetch_appinfo assertsEnabled g key job
              job.apps quals kvs with
          | .error e => .error e
          | .ok (rc, kvs1) =>
            if rc ≠ PMIX_SUCCESS ∧ proc.rank = pmix_rank_t.wildcard then
              .ok (fetch_doover g job proc scope copy key quals kvs1)
            else .ok (rc, kvs1)
        else .ok (fetch_doover g job proc scope copy key quals kvs)

/-! ## Specification-side helpers

Closed-form descriptions used to state the theorems; each mirrors a
property of the corresponding loop, proved below. -/

/-- The attributes of a blob payload that precede its first malformed
item: exactly the ones the ingestion loop stores. -/
def storedPrefix : List BlobItem → List pmix_kval_t
  | [] => []
  | .kv k :: rest => k :: storedPrefix rest
  | .malformed _ :: _ => []

/-- The store insertions contributed by one blob. -/
def storedEntries (m : pmix_modex_data_t) : ClientStore :=
  (storedPrefix m.payload).map (fun k => (m.nspace, m.rank, k))

/-- The store insertions contributed by a blob sequence, in order. -/
def storedAll : List pmix_modex_data_t → ClientStore
  | [] => []
  | m :: rest => storedEntries m ++ storedAll rest

/-- The status terminating a blob's decode loop: the first malformed
item's hard error, or end-of-buffer at payload exhaustion. -/
def blobTerm : List BlobItem → pmix_status_t
  | [] => PMIX_ERR_UNPACK_READ_PAST_END_OF_BUFFER
  | .kv _ :: rest => blobTerm rest
  | .malformed rc :: _ => rc

/-- The terminating status of the final blob of a sequence. -/
def lastBlobStatus : List pmix_modex_data_t → pmix_status_t
  | [] => PMIX_SUCCESS
  | [m] => blobTerm m.payload
  | _ :: m :: rest => lastBlobStatus (m :: rest)

/-- The overall status unpack_return computes for a reply whose leading
status decoded as success: the final blob's terminating status when it is
a hard error, success otherwise. -/
def finalFenceStatus (blobs : List pmix_modex_data_t) : pmix_status_t :=
  let t := lastBlobStatus blobs
  if t ≠ PMIX_SUCCESS ∧ t ≠ PMIX_ERR_UNPACK_READ_PAST_END_OF_BUFFER then t
  else PMIX_SUCCESS

/-- Whether some attribute under rank slot `r` of the per-rank table has
key `k` ("rank r holds k"). -/
def htHolds (ht : HashTab) (r : Nat) (k : String) : Bool :=
  ((ht.filter (fun e => decide (e.1 = .concrete r))).map Prod.snd).any
    (fun kv => decide (kv.key = k))

/-! ## Concrete fixtures for witnesses and counterexamples -/

/-- Example globals. -/
def exG : PMIxGlobals := { hostname := "host0", appnum := 0 }

/-- A fallback store that always reports not-found. -/
def exFfgdsNF : FallbackFetch := fun _ _ _ _ _ kvs => (PMIX_ERR_NOT_FOUND, kvs)

/-- A fallback store returning the marker status -999, which no local
resolution path produces: observing -999 proves the delegate was
consulted. -/
def exFfgdsMark : FallbackFetch := fun _ _ _ _ _ kvs => (-999, kvs)

/-- Job whose only copy of key k1 sits in the job-level info list; rank 0
holds nothing; the delegate is the marker store. -/
def exJobDelegate : pmix_gds_shmem_job_t :=
  { versionMajor := 3, versionMinor := 1, nprocs := 1, nodeinfo := [],
    apps := [], jobinfo := [⟨"k1", .vu32 7⟩], local_hashtab := [],
    ffgds := exFfgdsMark }

def exRegDelegate : List (String × pmix_gds_shmem_job_t) := [("ns", exJobDelegate)]

/-- Job whose rank 0 holds key ka. -/
def exJobScan : pmix_gds_shmem_job_t :=
  { versionMajor := 3, versionMinor := 1, nprocs := 1, nodeinfo := [],
    apps := [], jobinfo := [],
    local_hashtab := [(.concrete 0, ⟨"ka", .vu32 1⟩)], ffgds := exFfgdsNF }

def exRegScan : List (String × pmix_gds_shmem_job_t) := [("ns", exJobScan)]

/-- A minimal registered job. -/
def exJobPlain : pmix_gds_shmem_job_t :=
  { versionMajor := 3, versionMinor := 1, nprocs := 0, nodeinfo := [],
    apps := [], jobinfo := [], local_hashtab := [], ffgds := exFfgdsNF }

def exRegPlain : List (String × pmix_gds_shmem_job_t) := [("ns", exJobPlain)]

/-- Example node record. -/
def exNi : pmix_gds_shmem_nodeinfo_t :=
  { nodeid := some 0, hostname := some "h0", info := [⟨"nk", .vu32 9⟩] }

/-- Job with no node records (so the node-info path fails) but whose
wildcard slot holds key kb; used to exercise the WILDCARD fall-through. -/
def exJobNodeFail : pmix_gds_shmem_job_t :=
  { versionMajor := 3, versionMinor := 1, nprocs := 1, nodeinfo := [],
    apps := [], jobinfo := [],
    local_hashtab := [(.wildcard, ⟨"kb", .vu32 5⟩)], ffgds := exFfgdsNF }

def exRegNodeFail : List (String × pmix_gds_shmem_job_t) := [("ns", exJobNodeFail)]

/-- Qualifiers requesting node info for hostname h (which exJobNodeFail
does not know). -/
def exNodeQuals : List pmix_info_t :=
  [⟨PMIX_NODE_INFO, .vbool true⟩, ⟨PMIX_HOSTNAME, .vstr "h"⟩]

/-- First blob of the C1 counterexample reply: one decodable attribute. -/
def cexBlobA : pmix_modex_data_t :=
  { nspace := "nsA", rank := 0, payload := [.kv ⟨"ka", .vu32 1⟩] }

/-- Second blob of the C1 counterexample reply: malformed bytes reported
as the hard decode error PMIX_ERR_PACK_MISMATCH. -/
def cexBlobB : pmix_modex_data_t :=
  { nspace := "nsB", rank := 1, payload := [.malformed PMIX_ERR_PACK_MISMATCH] }

/-! ## Lemmas about ingestion -/

theorem ingestBlobLoop_eq (nspace : String) (rank : Nat)
    (payload : List BlobItem) :
    ∀ store, ingestBlobLoop nspace rank payload store
      = (blobTerm payload,
         store ++ (storedPrefix payload).map (fun k => (nspace, rank, k))) := by
  induction payload with
  | nil => intro store; simp [ingestBlobLoop, blobTerm, storedPrefix]
  | cons it rest ih =>
    intro store
    cases it with
    | kv k =>
      simp [ingestBlobLoop, blobTerm, storedPrefix, pmix_client_hash_store, ih]
    | malformed rc =>
      simp [ingestBlobLoop, blobTerm, storedPrefix]

theorem ingestBlob_eq (m : pmix_modex_data_t) (store : ClientStore) :
    ingestBlob m store = (blobTerm m.payload, store ++ storedEntries m) := by
  simp [ingestBlob, storedEntries, ingestBlobLoop_eq]

theorem ingestBlobs_cons (rest : List pmix_modex_data_t) :
    ∀ (m : pmix_modex_data_t) (prev : pmix_status_t) (store : ClientStore),
      ingestBlobs prev (m :: rest) store
        = (lastBlobStatus (m :: rest), store ++ storedAll (m :: rest)) := by
  induction rest with
  | nil =>
    intro m prev store
    simp [ingestBlobs, ingestBlob_eq, lastBlobStatus, storedAll]
  | cons m2 rest2 ih =>
    intro m prev store
    show ingestBlobs (ingestBlob m store).1 (m2 :: rest2) (ingestBlob m store).2 = _
    rw [ingestBlob_eq]
    simp only [ih, lastBlobStatus, storedAll, List.append_assoc]

theorem unpackModexN_exact (blobs : List pmix_modex_data_t) :
    unpackModexN blobs.length (blobs.map ReplyItem.rModex) = .ok (blobs, []) := by
  induction blobs with
  | nil => rfl
  | cons m rest ih => simp [unpackModexN, ih]

/-- C1 (amended): during ingestion of a fence reply whose leading status
is success, a hard (non-end-of-buffer) decode error in a blob abandons
that blob's remaining items, subsequent blobs are still processed, and
every attribute decoded before each blob's terminator is stored; the
overall status is success exactly when the final blob's decode loop
terminated with the end-of-buffer terminator, while a hard error
terminating the final blob propagates as the overall status even when
attributes (of any blob) had already been stored. -/
theorem unpack_return_success_lead_closed_form
    (blobs : List pmix_modex_data_t) (store : ClientStore) :
    unpack_return
        (ReplyItem.rInt 0 :: ReplyItem.rSize blobs.length ::
          blobs.map ReplyItem.rModex) store
      = (finalFenceStatus blobs, store ++ storedAll blobs) := by
  cases blobs with
  | nil =>
    simp [unpack_return, unpackInt, unpackSize, finalFenceStatus,
      lastBlobStatus, storedAll, PMIX_SUCCESS]
  | cons m rest =>
    have hmx := unpackModexN_exact (m :: rest)
    simp only [unpack_return, unpackInt, unpackSize, List.length_cons,
      List.map_cons] at hmx ⊢
    rw [hmx]
    simp only [ingestBlobs_cons, finalFenceStatus]
    by_cases hc : lastBlobStatus (m :: rest) ≠ PMIX_SUCCESS ∧
        lastBlobStatus (m :: rest) ≠ PMIX_ERR_UNPACK_READ_PAST_END_OF_BUFFER
    · rw [if_pos hc, if_pos hc]; simp [PMIX_SUCCESS]
    · rw [if_neg hc, if_neg hc]; simp [PMIX_SUCCESS]

/-- C1 (counterexample): a reply whose leading status is success, whose
first blob stores an attribute, and whose second (multi-blob case) blob
hits a hard decode error.  The claim says the overall status delivered to
the completion callback is success because the error came after an
attribute had been stored; the code instead propagates the final blob's
hard error as the delivered status. -/
theorem unpack_return_last_blob_error_propagates :
    wait_cbfunc
        [ReplyItem.rInt 0, ReplyItem.rSize 2,
         ReplyItem.rModex cexBlobA, ReplyItem.rModex cexBlobB]
        [] { active := true, status := PMIX_SUCCESS }
      = (PMIX_ERR_PACK_MISMATCH, [("nsA", 0, ⟨"ka", .vu32 1⟩)],
         { active := false, status := PMIX_ERR_PACK_MISMATCH })
    ∧ PMIX_ERR_PACK_MISMATCH ≠ PMIX_SUCCESS := by
  exact ⟨by rfl, by decide⟩

/-- C5: a delivered fence reply whose leading decoded status is
non-success skips ingestion entirely — whatever follows the status in the
buffer, the store is unchanged — and exactly that status is delivered to
the completion callback. -/
theorem reply_error_skips_ingestion (ret : pmix_status_t)
    (rest : List ReplyItem) (store : ClientStore) (cb : pmix_cb_t)
    (h : ret ≠ PMIX_SUCCESS) :
    wait_cbfunc (ReplyItem.rInt ret :: rest) store cb
      = (ret, store, op_cbfunc ret cb) := by
  simp [wait_cbfunc, unpack_return, unpackInt, h]

/-- C5 witness: a concrete failed reply that even carries a decodable
blob; the blob is not ingested and the status -63 is delivered. -/
theorem reply_error_skips_ingestion_witness :
    ((-63 : pmix_status_t) ≠ PMIX_SUCCESS)
    ∧ wait_cbfunc
        [ReplyItem.rInt (-63), ReplyItem.rSize 1, ReplyItem.rModex cexBlobA]
        [] { active := true, status := PMIX_SUCCESS }
      = (-63, [], { active := false, status := -63 }) :=
  ⟨by decide,
   reply_error_skips_ingestion (-63) [ReplyItem.rSize 1, ReplyItem.rModex cexBlobA]
     [] { active := true, status := PMIX_SUCCESS } (by decide)⟩

/-- C3: for an initialized caller and any collect flag, fence_nb with
(procs = null, nprocs = 0) and fence_nb with the single-element set
{own namespace, WILDCARD} produce identical results, in particular
identical encoded request buffers. -/
theorem fence_nb_null_procs_materialized (st : ClientState) (cd : Int)
    (h : 0 < st.init_cntr) :
    PMIx_Fence_nb st none 0 cd
      = PMIx_Fence_nb st (some [{ nspace := st.nspace, rank := .wildcard }]) 1 cd := by
  have h2 : ¬st.init_cntr ≤ 0 := not_le.mpr h
  simp [PMIx_Fence_nb, h2, pack_fence]

/-- C3 witness: the two call shapes at a concrete initialized state. -/
theorem fence_nb_null_procs_materialized_witness :
    (0 : Int) < (1 : Int)
    ∧ PMIx_Fence_nb { init_cntr := 1, nspace := "myns" } none 0 1
        = PMIx_Fence_nb { init_cntr := 1, nspace := "myns" }
            (some [{ nspace := "myns", rank := .wildcard }]) 1 1 :=
  ⟨by decide,
   fence_nb_null_procs_materialized { init_cntr := 1, nspace := "myns" } 1 (by decide)⟩

/-- C8 (counterexample): a successful fence_nb call with collect_data = 2
encodes the trailing integer as 2, which is neither 0 nor 1; the flag is
packed as the raw argument, not normalized to a 0/1 value. -/
theorem fence_collect_flag_not_normalized :
    PMIx_Fence_nb { init_cntr := 1, nspace := "n0" } none 0 2
      = { status := PMIX_SUCCESS,
          sent := some [ReqItem.cmd PMIX_FENCENB_CMD, ReqItem.size 1,
                        ReqItem.proc { nspace := "n0", rank := .wildcard },
                        ReqItem.int 2],
          registered := true }
    ∧ ¬((2 : Int) = 0 ∨ (2 : Int) = 1) := by
  exact ⟨by rfl, by decide⟩

/-- C8 (amended): every fence_nb call that returns success hands the
transport a buffer consisting, in order, of the fence command tag, the
process-set cardinality as a size, the process-set entries as proc-ids,
and the collect_data flag encoded as an integer equal to the collect_data
argument (hence 0 or 1 whenever the caller passes a boolean flag). -/
theorem fence_request_layout (st : ClientState)
    (procs : Option (List pmix_proc_t)) (nprocs : Nat) (cd : Int)
    (h : (PMIx_Fence_nb st procs nprocs cd).status = PMIX_SUCCESS) :
    (PMIx_Fence_nb st procs nprocs cd).sent
      = some (ReqItem.cmd PMIX_FENCENB_CMD ::
          ReqItem.size (match procs with | none => 1 | some _ => nprocs) ::
          (((match procs with
             | none => ([{ nspace := st.nspace, rank := .wildcard }] : List pmix_proc_t)
             | some ps => ps).take
              (match procs with | none => 1 | some _ => nprocs)).map ReqItem.proc
            ++ [ReqItem.int cd])) := by
  by_cases h1 : st.init_cntr ≤ 0
  · simp [PMIx_Fence_nb, h1, PMIX_ERR_INIT, PMIX_SUCCESS] at h
  · cases procs with
    | none =>
      by_cases h2 : nprocs ≠ 0
      · simp [PMIx_Fence_nb, h1, h2, PMIX_ERR_BAD_PARAM, PMIX_SUCCESS] at h
      · simp [PMIx_Fence_nb, h1, h2, pack_fence]
    | some ps => simp [PMIx_Fence_nb, h1, pack_fence]

/-- C8 witness: the layout of a concrete successful call. -/
theorem fence_request_layout_witness :
    (PMIx_Fence_nb { init_cntr := 1, nspace := "n0" } none 0 1).status = PMIX_SUCCESS
    ∧ (PMIx_Fence_nb { init_cntr := 1, nspace := "n0" } none 0 1).sent
        = some [ReqItem.cmd PMIX_FENCENB_CMD, ReqItem.size 1,
                ReqItem.proc { nspace := "n0", rank := .wildcard }, ReqItem.int 1] :=
  ⟨by rfl, fence_request_layout { init_cntr := 1, nspace := "n0" } none 0 1 (by rfl)⟩

/-- C9: when the non-blocking issuance inside a blocking fence succeeds,
the internal completion handler is invoked exactly once, and the status
the blocking call returns is exactly the status delivered to that
handler. -/
theorem fence_blocking_status (st : ClientState)
    (procs : Option (List pmix_proc_t)) (nprocs : Nat) (cd : Int)
    (reply : List ReplyItem) (store : ClientStore)
    (h : (PMIx_Fence_nb st procs nprocs cd).status = PMIX_SUCCESS) :
    (PMIx_Fence st procs nprocs cd reply store).2.2
      = [(PMIx_Fence st procs nprocs cd reply store).1] := by
  simp [PMIx_Fence, h, wait_cbfunc, op_cbfunc]

/-- C9 witness: a concrete blocking fence whose reply carries status -63;
the completion list is exactly the returned status. -/
theorem fence_blocking_status_witness :
    (PMIx_Fence_nb { init_cntr := 1, nspace := "n0" } none 0 0).status = PMIX_SUCCESS
    ∧ (PMIx_Fence { init_cntr := 1, nspace := "n0" } none 0 0
          [ReplyItem.rInt (-63)] []).2.2
        = [(PMIx_Fence { init_cntr := 1, nspace := "n0" } none 0 0
              [ReplyItem.rInt (-63)] []).1] :=
  ⟨by rfl,
   fence_blocking_status { init_cntr := 1, nspace := "n0" } none 0 0
     [ReplyItem.rInt (-63)] [] (by rfl)⟩

/-- C10: a fence_nb call that returns non-success hands nothing to the
transport and registers no callback, and a blocking fence whose internal
fence_nb fails returns that failure at once, with no completion event and
the store untouched. -/
theorem fence_nb_failure_no_send (st : ClientState)
    (procs : Option (List pmix_proc_t)) (nprocs : Nat) (cd : Int)
    (h : (PMIx_Fence_nb st procs nprocs cd).status ≠ PMIX_SUCCESS) :
    (PMIx_Fence_nb st procs nprocs cd).sent = none
    ∧ (PMIx_Fence_nb st procs nprocs cd).registered = false
    ∧ ∀ (reply : List ReplyItem) (store : ClientStore),
        PMIx_Fence st procs nprocs cd reply store
          = ((PMIx_Fence_nb st procs nprocs cd).status, store, []) := by
  refine ⟨?_, ?_, ?_⟩
  · by_cases h1 : st.init_cntr ≤ 0
    · simp [PMIx_Fence_nb, h1]
    · cases procs with
      | none =>
        by_cases h2 : nprocs ≠ 0
        · simp [PMIx_Fence_nb, h1, h2]
        · simp [PMIx_Fence_nb, h1, h2, PMIX_SUCCESS] at h
      | some ps => simp [PMIx_Fence_nb, h1, PMIX_SUCCESS] at h
  · by_cases h1 : st.init_cntr ≤ 0
    · simp [PMIx_Fence_nb, h1]
    · cases procs with
      | none =>
        by_cases h2 : nprocs ≠ 0
        · simp [PMIx_Fence_nb, h1, h2]
        · simp [PMIx_Fence_nb, h1, h2, PMIX_SUCCESS] at h
      | some ps => simp [PMIx_Fence_nb, h1, PMIX_SUCCESS] at h
  · intro reply store
    simp [PMIx_Fence, h]

/-- C10 witness: an uninitialized caller; nothing is sent and the
blocking call returns the initialization failure with no completion. -/
theorem fence_nb_failure_no_send_witness :
    (PMIx_Fence_nb { init_cntr := 0, nspace := "n0" } none 0 0).status ≠ PMIX_SUCCESS
    ∧ (PMIx_Fence_nb { init_cntr := 0, nspace := "n0" } none 0 0).sent = none
    ∧ PMIx_Fence { init_cntr := 0, nspace := "n0" } none 0 0 [] []
        = (PMIX_ERR_INIT, [], []) :=
  ⟨by decide,
   (fence_nb_failure_no_send { init_cntr := 0, nspace := "n0" } none 0 0 (by decide)).1,
   (fence_nb_failure_no_send { init_cntr := 0, nspace := "n0" } none 0 0 (by decide)).2.2 [] []⟩

/-! ## Lemmas about the fetch path -/

theorem from_list_asserts_unchanged (job : pmix_gds_shmem_job_t)
    (nodes : List pmix_gds_shmem_nodeinfo_t) :
    ∀ (kvs kvs2 : List pmix_kval_t) (rc : pmix_status_t),
      fetch_all_node_info_from_list true job nodes kvs = .ok (rc, kvs2) →
      kvs2 = kvs := by
  induction nodes with
  | nil =>
    intro kvs kvs2 rc h
    rw [fetch_all_node_info_from_list] at h
    cases h
    rfl
  | cons ni rest ih =>
    intro kvs kvs2 rc h
    rw [fetch_all_node_info_from_list] at h
    by_cases hv : versionPre31 job
    · rw [if_pos hv] at h
      cases hni : ni.hostname with
      | none => rw [hni] at h; exact ih kvs kvs2 rc h
      | some hn => rw [hni] at h; simp [fetch_all_node_info] at h
    · rw [if_neg hv] at h
      simp [fetch_all_node_info] at h

theorem hash2_keyed_miss (ht : HashTab) (r : Nat) (k : String)
    (qs : List pmix_info_t) (kvs : List pmix_kval_t)
    (h : htHolds ht r k = false) :
    pmix_hash2_fetch ht (.concrete r) (some k) qs kvs = (PMIX_ERR_NOT_FOUND, kvs) := by
  rw [htHolds] at h
  rw [pmix_hash2_fetch]
  have hfind :
      (((ht.filter (fun e => decide (e.1 = .concrete r))).map Prod.snd).find?
        (fun kv => decide (kv.key = k))) = none := by
    rw [List.find?_eq_none]
    intro x hx hpx
    have : (((ht.filter (fun e => decide (e.1 = .concrete r))).map Prod.snd).any
        (fun kv => decide (kv.key = k))) = true :=
      List.any_eq_true.mpr ⟨x, hx, hpx⟩
    rw [this] at h
    cases h
  simp [hfind]

theorem hash2_keyed_hit (ht : HashTab) (r : Nat) (k : String)
    (qs : List pmix_info_t) (kvs : List pmix_kval_t)
    (h : htHolds ht r k = true) :
    (pmix_hash2_fetch ht (.concrete r) (some k) qs kvs).1 = PMIX_SUCCESS := by
  rw [htHolds, List.any_eq_true] at h
  obtain ⟨x, hx, hpx⟩ := h
  rw [pmix_hash2_fetch]
  cases hfind : (((ht.filter (fun e => decide (e.1 = .concrete r))).map Prod.snd).find?
      (fun kv => decide (kv.key = k))) with
  | none =>
    rw [List.find?_eq_none] at hfind
    exact absurd hpx (hfind x hx)
  | some kv => simp [hfind]

theorem undefScan_no_match (ht : HashTab) (k : String) (qs : List pmix_info_t) :
    ∀ (remaining start : Nat) (kvs : List pmix_kval_t),
      (∀ j, j < remaining → htHolds ht (start + j) k = false) →
      undefScan ht (some k) qs start remaining kvs = .inr kvs := by
  intro remaining
  induction remaining with
  | zero => intro start kvs _; rfl
  | succ n ih =>
    intro start kvs hmiss
    have h0 : htHolds ht start k = false := by
      have := hmiss 0 (by omega)
      simpa using this
    rw [undefScan, hash2_keyed_miss ht start k qs kvs h0]
    simp only [PMIX_ERR_NOT_FOUND, PMIX_SUCCESS]
    rw [if_neg (by simp)]
    exact ih (start + 1) kvs (fun j hj => by
      have h2 := hmiss (j + 1) (by omega)
      rw [show start + 1 + j = start + (j + 1) by omega]
      exact h2)

theorem undefScan_first_match (ht : HashTab) (k : String) (qs : List pmix_info_t) :
    ∀ (remaining j start : Nat) (kvs : List pmix_kval_t),
      j < remaining →
      htHolds ht (start + j) k = true →
      (∀ i, i < j → htHolds ht (start + i) k = false) →
      undefScan ht (some k) qs start remaining kvs
        = .inl (pmix_hash2_fetch ht (.concrete (start + j)) (some k) qs kvs) := by
  intro remaining
  induction remaining with
  | zero => intro j start kvs hj; omega
  | succ n ih =>
    intro j start kvs hj hhit hmiss
    cases j with
    | zero =>
      have h1 : (pmix_hash2_fetch ht (.concrete start) (some k) qs kvs).1 = PMIX_SUCCESS :=
        hash2_keyed_hit ht start k qs kvs (by simpa using hhit)
      rw [undefScan]
      rw [if_pos ⟨h1, by simp⟩]
      simp
    | succ j2 =>
      have h0 : htHolds ht start k = false := by simpa using hmiss 0 (by omega)
      rw [undefScan, hash2_keyed_miss ht start k qs kvs h0]
      rw [if_neg (by simp [PMIX_ERR_NOT_FOUND, PMIX_SUCCESS])]
      have hstep := ih j2 (start + 1) kvs (by omega)
        (by rw [show start + 1 + j2 = start + (j2 + 1) by omega]; exact hhit)
        (fun i hi => by
          rw [show start + 1 + i = start + (i + 1) by omega]
          exact hmiss (i + 1) (by omega))
      rw [show start + (j2 + 1) = start + 1 + j2 by omega]
      exact hstep

/-- C4: on a registered namespace, a fetch with null key and WILDCARD
rank fails with the distinct not-supported status (NDEBUG build), and
under no assertion setting does it return success — in particular it
never silently returns success with an empty result list. -/
theorem fetch_wildcard_nullkey_not_supported (g : PMIxGlobals)
    (registry : List (String × pmix_gds_shmem_job_t)) (ns : String)
    (job : pmix_gds_shmem_job_t) (scope : pmix_scope_t) (copy : Bool)
    (quals : List pmix_info_t) (kvs : List pmix_kval_t)
    (hreg : pmix_gds_shmem_get_job_tracker registry ns false = .ok job) :
    pmix_gds_shmem_fetch false g registry ⟨ns, .wildcard⟩ scope copy none quals kvs
      = .ok (PMIX_ERR_NOT_SUPPORTED, kvs)
    ∧ ∀ (ae : Bool) (res : pmix_status_t × List pmix_kval_t),
        pmix_gds_shmem_fetch ae g registry ⟨ns, .wildcard⟩ scope copy none quals kvs
          = .ok res → res.1 ≠ PMIX_SUCCESS := by
  constructor
  · simp [pmix_gds_shmem_fetch, hreg]
  · intro ae res h
    cases ae with
    | true => simp [pmix_gds_shmem_fetch, hreg] at h
    | false =>
      simp [pmix_gds_shmem_fetch, hreg] at h
      rw [← h]
      simp [PMIX_ERR_NOT_SUPPORTED, PMIX_SUCCESS]

/-- C4 witness: the reserved combination on a concrete registered job. -/
theorem fetch_wildcard_nullkey_not_supported_witness :
    pmix_gds_shmem_get_job_tracker exRegPlain "ns" false = .ok exJobPlain
    ∧ pmix_gds_shmem_fetch false exG exRegPlain ⟨"ns", .wildcard⟩ 0 true none [] []
        = .ok (PMIX_ERR_NOT_SUPPORTED, []) :=
  ⟨by rfl,
   (fetch_wildcard_nullkey_not_supported exG exRegPlain "ns" exJobPlain 0 true [] []
      (by rfl)).1⟩

/-- C6: under assertion checking, the path assembling a full node-info
composite cannot complete: fetch_all_node_info aborts on its leading
assert(false) before producing any composite, and consequently neither
the all-nodes enumeration nor the null-key node-info resolution can
return normally with anything appended to the results. -/
theorem node_composite_path_asserts :
    (∀ (key : String) (ni : pmix_gds_shmem_nodeinfo_t) (kvs : List pmix_kval_t),
        fetch_all_node_info true key ni kvs = .error .assertFalse)
    ∧ (∀ (job : pmix_gds_shmem_job_t) (nodes : List pmix_gds_shmem_nodeinfo_t)
          (kvs kvs2 : List pmix_kval_t) (rc : pmix_status_t),
        fetch_all_node_info_from_list true job nodes kvs = .ok (rc, kvs2) →
        kvs2 = kvs)
    ∧ (∀ (g : PMIxGlobals) (job : pmix_gds_shmem_job_t)
          (quals : List pmix_info_t) (kvs kvs2 : List pmix_kval_t)
          (rc : pmix_status_t),
        pmix_gds_shmem_fetch_nodeinfo true g none job job.nodeinfo quals kvs
          = .ok (rc, kvs2) → kvs2 = kvs) := by
  refine ⟨fun key ni kvs => rfl, fun job nodes kvs kvs2 rc h =>
    from_list_asserts_unchanged job nodes kvs kvs2 rc h, ?_⟩
  intro g job quals kvs kvs2 rc h
  rw [pmix_gds_shmem_fetch_nodeinfo] at h
  cases hq : findNodeQual quals with
  | none =>
    rw [hq] at h
    simp only [Option.isSome_none] at h
    rw [if_pos (by simp)] at h
    exact from_list_asserts_unchanged job job.nodeinfo kvs kvs2 rc h
  | some nq =>
    rw [hq] at h
    cases nq with
    | badVal rcq => cases h; rfl
    | byId nid =>
      simp only [Option.isSome_some] at h
      rw [if_neg (by simp)] at h
      cases hlk : (job.nodeinfo.find? (fun ndi => decide (ndi.nodeid = some nid))) with
      | none => rw [hlk] at h; cases h; rfl
      | some ndi => rw [hlk] at h; simp [fetch_all_node_info] at h
    | byName hn =>
      simp only [Option.isSome_some] at h
      rw [if_neg (by simp)] at h
      cases hlk : pmix_gds_shmem_get_nodeinfo_by_nodename job.nodeinfo hn with
      | none => rw [hlk] at h; cases h; rfl
      | some ndi => rw [hlk] at h; simp [fetch_all_node_info] at h

/-- C6 witness: the assertion aborts composite assembly at a concrete
node, and the only normal completions append nothing. -/
theorem node_composite_path_asserts_witness :
    fetch_all_node_info true "x" exNi [] = .error .assertFalse
    ∧ ([] : List pmix_kval_t) = []
    ∧ ([⟨"j", pmix_value_t.vu32 2⟩] : List pmix_kval_t) = [⟨"j", pmix_value_t.vu32 2⟩] :=
  ⟨node_composite_path_asserts.1 "x" exNi [],
   node_composite_path_asserts.2.1 exJobPlain [] [] [] PMIX_SUCCESS (by rfl),
   node_composite_path_asserts.2.2 exG exJobPlain [] [⟨"j", pmix_value_t.vu32 2⟩]
     [⟨"j", pmix_value_t.vu32 2⟩] PMIX_SUCCESS (by rfl)⟩

/-- C7: when a keyed fetch is classified node-requested and the node-info
resolution path fails, a WILDCARD-rank call falls through to the generic
(doover) search and returns that search's result, while an UNDEF-rank
call returns the node-info path's failure status directly. -/
theorem fetch_node_path_wildcard_fallthrough (ae : Bool) (g : PMIxGlobals)
    (registry : List (String × pmix_gds_shmem_job_t)) (ns : String)
    (job : pmix_gds_shmem_job_t) (scope : pmix_scope_t) (copy : Bool)
    (k : String) (appi : Bool) (quals : List pmix_info_t)
    (kvs kvs1 : List pmix_kval_t) (rc : pmix_status_t)
    (hreg : pmix_gds_shmem_get_job_tracker registry ns false = .ok job)
    (hflags : fetchFlags (some k) quals = some (true, appi))
    (hnode : pmix_gds_shmem_fetch_nodeinfo ae g (some k) job job.nodeinfo quals kvs
      = .ok (rc, kvs1))
    (hrc : rc ≠ PMIX_SUCCESS) :
    pmix_gds_shmem_fetch ae g registry ⟨ns, .wildcard⟩ scope copy (some k) quals kvs
      = .ok (fetch_doover g job ⟨ns, .wildcard⟩ scope copy (some k) quals kvs1)
    ∧ pmix_gds_shmem_fetch ae g registry ⟨ns, .undef⟩ scope copy (some k) quals kvs
      = .ok (rc, kvs1) := by
  constructor
  · simp [pmix_gds_shmem_fetch, hreg, hflags, hnode, PMIX_RANK_IS_VALID, hrc]
  · simp [pmix_gds_shmem_fetch, hreg, hflags, hnode, PMIX_RANK_IS_VALID]

/-- C7 witness: a job with no node records; the node-info path reports
not-found, the WILDCARD call then finds key kb in the wildcard slot of
the generic search, and the UNDEF call returns not-found directly. -/
theorem fetch_node_path_wildcard_fallthrough_witness :
    pmix_gds_shmem_fetch_nodeinfo false exG (some "kb") exJobNodeFail
        exJobNodeFail.nodeinfo exNodeQuals [] = .ok (PMIX_ERR_NOT_FOUND, [])
    ∧ pmix_gds_shmem_fetch false exG exRegNodeFail ⟨"ns", .wildcard⟩ 0 true
        (some "kb") exNodeQuals []
      = .ok (fetch_doover exG exJobNodeFail ⟨"ns", .wildcard⟩ 0 true
          (some "kb") exNodeQuals [])
    ∧ pmix_gds_shmem_fetch false exG exRegNodeFail ⟨"ns", .undef⟩ 0 true
        (some "kb") exNodeQuals []
      = .ok (PMIX_ERR_NOT_FOUND, []) :=
  ⟨by rfl,
   (fetch_node_path_wildcard_fallthrough false exG exRegNodeFail "ns" exJobNodeFail
      0 true "kb" false exNodeQuals [] [] PMIX_ERR_NOT_FOUND (by rfl) (by rfl)
      (by rfl) (by decide)).1,
   (fetch_node_path_wildcard_fallthrough false exG exRegNodeFail "ns" exJobNodeFail
      0 true "kb" false exNodeQuals [] [] PMIX_ERR_NOT_FOUND (by rfl) (by rfl)
      (by rfl) (by decide)).2⟩

/-- C2 (amended): for a keyed fetch with rank UNDEF on a registered
namespace, when the key is not classified node- or app-requested, the
per-rank table is scanned at ranks 0..N-1 in increasing order and the
call returns the per-rank lookup result of the first rank holding the
key; when no rank holds the key, the job-level attribute list is checked
(a match is appended to the results), and the key-specific query is then
delegated to the fallback store unconditionally — even when the job-level
list resolved the key — with the delegate's status returned. -/
theorem fetch_undef_keyed_resolution (ae : Bool) (g : PMIxGlobals)
    (registry : List (String × pmix_gds_shmem_job_t)) (ns : String)
    (job : pmix_gds_shmem_job_t) (scope : pmix_scope_t) (copy : Bool)
    (k : String) (quals : List pmix_info_t) (kvs : List pmix_kval_t)
    (hreg : pmix_gds_shmem_get_job_tracker registry ns false = .ok job)
    (hflags : fetchFlags (some k) quals = some (false, false)) :
    (∀ r, r < job.nprocs → htHolds job.local_hashtab r k = true →
      (∀ i, i < r → htHolds job.local_hashtab i k = false) →
      pmix_gds_shmem_fetch ae g registry ⟨ns, .undef⟩ scope copy (some k) quals kvs
        = .ok (pmix_hash2_fetch job.local_hashtab (.concrete r) (some k) quals kvs))
    ∧ ((∀ r, r < job.nprocs → htHolds job.local_hashtab r k = false) →
      pmix_gds_shmem_fetch ae g registry ⟨ns, .undef⟩ scope copy (some k) quals kvs
        = .ok (job.ffgds ⟨ns, .undef⟩ scope copy (some k) quals
            (jobinfoAppend (some k) job.jobinfo kvs))) := by
  have hred :
      pmix_gds_shmem_fetch ae g registry ⟨ns, .undef⟩ scope copy (some k) quals kvs
        = .ok (fetch_doover g job ⟨ns, .undef⟩ scope copy (some k) quals kvs) := by
    simp [pmix_gds_shmem_fetch, hreg, hflags, PMIX_RANK_IS_VALID]
  constructor
  · intro r hr hhit hmiss
    rw [hred, fetch_doover]
    rw [if_pos (by rfl)]
    have hscan := undefScan_first_match job.local_hashtab k quals job.nprocs r 0 kvs
      hr (by simpa using hhit) (fun i hi => by simpa using hmiss i hi)
    simp only [Nat.zero_add] at hscan
    rw [hscan]
  · intro hmiss
    rw [hred, fetch_doover]
    rw [if_pos (by rfl)]
    have hscan := undefScan_no_match job.local_hashtab k quals job.nprocs 0 kvs
      (fun j hj => by simpa using hmiss j hj)
    rw [hscan]

/-- C2 (counterexample): namespace ns whose single rank holds nothing
while the job-level list holds k1; the delegate is a marker store
returning -999.  The call returns the marker status with the job-level
match appended: the query was delegated to the fallback store even though
the job-level attribute list had already resolved the key, contradicting
"only if the key is still unresolved locally is the query delegated". -/
theorem fetch_undef_delegates_despite_joblevel_match :
    pmix_gds_shmem_fetch false exG exRegDelegate ⟨"ns", .undef⟩ 0 true
        (some "k1") [] []
      = .ok (-999, [⟨"k1", .vu32 7⟩])
    ∧ ((-999 : pmix_status_t) ≠ PMIX_SUCCESS) :=
  ⟨by rfl, by decide⟩

/-- C2 witness: rank 0 of exJobScan holds ka; the scan stops there and
returns its per-rank lookup result. -/
theorem fetch_undef_keyed_resolution_witness :
    (0 < exJobScan.nprocs ∧ htHolds exJobScan.local_hashtab 0 "ka" = true)
    ∧ pmix_gds_shmem_fetch false exG exRegScan ⟨"ns", .undef⟩ 0 true
        (some "ka") [] []
      = .ok (pmix_hash2_fetch exJobScan.local_hashtab (.concrete 0)
          (some "ka") [] []) :=
  ⟨⟨by decide, by decide⟩,
   (fetch_undef_keyed_resolution false exG exRegScan "ns" exJobScan 0 true "ka"
      [] [] (by rfl) (by rfl)).1 0 (by decide) (by decide)
      (fun i hi => absurd hi (by omega))⟩
